import Mathlib

/-!
Shallow embedding of the sales-dashboard pipeline in `src/app.py`
(data loading aside: records are taken as already loaded and coerced).

Modelling conventions:
* `ValueNp` amounts are rationals (`ℚ`): the claims under study are exact
  arithmetic identities of the dataframe operations, none depends on
  floating-point rounding.
* An `InvoiceDate` is a calendar date, encoded as an absolute month number
  (`year * 12 + month`) plus a day of month; comparison is lexicographic,
  exactly the order of timestamps, and truncation to month (`dt.to_period("M")`)
  is the `absMonth` projection.  "One calendar month later" is `absMonth + 1`.
* A pandas operation that raises on the given input (e.g. `iloc[-1]` on an
  empty series) is modelled with `Option`, `none` standing for the raised
  exception; a float division whose denominator is zero, which yields a
  nonfinite float (`inf`/`nan`) under numpy semantics, is likewise `none`.
-/

namespace SalesDash

/-- A calendar date: absolute month index (year*12 + month) and day of month. -/
structure Date where
  absMonth : Nat
  day : Nat
deriving DecidableEq, Repr

/-- Timestamp order on dates: lexicographic on (month, day).  This is the
order `Series.between` uses on `InvoiceDate`. -/
def dateLe (a b : Date) : Bool :=
  decide (a.absMonth < b.absMonth ∨ (a.absMonth = b.absMonth ∧ a.day ≤ b.day))

/-- One invoice row after `load_data` (both `InvoiceDate` and `ValueNp`
present and valid). -/
structure Record where
  invoiceNo : Nat
  invoiceDate : Date
  valueNp : ℚ
  clientType : String
  distributorName : String
  productName : String
deriving DecidableEq, Repr

/-- Source `src/app.py` lines 44-47:
`df[(df["ClientType"].isin(client_type)) & (df["InvoiceDate"].between(start, end))]`.
`between` is inclusive on both bounds by default. -/
def filterRecords (df : List Record) (clientTypes : List String)
    (dstart dend : Date) : List Record :=
  df.filter (fun r =>
    clientTypes.contains r.clientType
      && dateLe dstart r.invoiceDate && dateLe r.invoiceDate dend)

/-- Sum of the `ValueNp` column (`df["ValueNp"].sum()`; 0 on an empty frame). -/
def sumValues (df : List Record) : ℚ := (df.map Record.valueNp).sum

/-- Source `src/app.py` line 58: `total_sales = df["ValueNp"].sum()`. -/
def total_sales (df : List Record) : ℚ := sumValues df

/-- Source `src/app.py` line 59: `total_invoices = df["InvoiceNo"].nunique()`. -/
def total_invoices (df : List Record) : Nat :=
  ((df.map Record.invoiceNo).dedup).length

/-- Source `src/app.py` line 60:
`avg_invoice = total_sales / total_invoices if total_invoices else 0`. -/
def avg_invoice (df : List Record) : ℚ :=
  if total_invoices df ≠ 0 then total_sales df / (total_invoices df : ℚ) else 0

/-- Code-point order on strings (`a ≤ b` lexicographically on the character
sequences), the key order `groupby(sort=True)` produces for string keys. -/
def charListLe : List Char → List Char → Bool
  | [], _ => true
  | _ :: _, [] => false
  | a :: as, b :: bs =>
    if a.toNat < b.toNat then true
    else if b.toNat < a.toNat then false
    else charListLe as bs

/-- String order as a proposition, for the sort of group keys. -/
def strLe (a b : String) : Prop := charListLe a.data b.data = true

instance : DecidableRel strLe := fun a b => by unfold strLe; infer_instance

/-- The distinct values of a key column (`.unique()` modulo order; the
order is irrelevant here because `groupby(sort=True)` sorts them next). -/
def keysOf {κ : Type} [DecidableEq κ] (k : Record → κ) (df : List Record) :
    List κ :=
  (df.map k).dedup

/-- Sum of `ValueNp` over the rows of one group
(`df.groupby(key)["ValueNp"].sum()` at a single key value). -/
def groupSum {κ : Type} [DecidableEq κ] (k : Record → κ) (df : List Record)
    (g : κ) : ℚ :=
  sumValues (df.filter (fun r => decide (k r = g)))

/-- Grouped sums `df.groupby(key)["ValueNp"].sum()` with pandas' default `sort=True`:
one `(key, sum)` pair per distinct key, keys in ascending order `r`. -/
def groupSums {κ : Type} [DecidableEq κ] (k : Record → κ) (r : κ → κ → Prop)
    [DecidableRel r] (df : List Record) : List (κ × ℚ) :=
  ((keysOf k df).insertionSort r).map (fun g => (g, groupSum k df g))

/-- Truncation of `InvoiceDate` to month granularity
(`df["InvoiceDate"].dt.to_period("M")`). -/
def monthKey (r : Record) : Nat := r.invoiceDate.absMonth

/-- Source `src/app.py` line 62:
`monthly_sales = df.groupby(df["InvoiceDate"].dt.to_period("M"))["ValueNp"].sum()`,
chronologically ascending (groupby sorts the period keys). -/
def monthly_sales (df : List Record) : List (Nat × ℚ) :=
  groupSums monthKey (fun a b => a ≤ b) df

/-- Source `src/app.py` lines 63-66:
`growth = (monthly_sales.iloc[-1] - monthly_sales.iloc[-2]) / monthly_sales.iloc[-2] * 100 if len(monthly_sales) > 1 else 0`.
`iloc[-k]` on a series of length `n ≥ k` is position `n - k`.  The division
is a numpy float division: when `iloc[-2]` is nonzero it yields the exact
quotient; when it is zero it yields a nonfinite float (`inf`/`nan`),
modelled here as `none`. -/
def growth (df : List Record) : Option ℚ :=
  let ms := (monthly_sales df).map Prod.snd
  if ms.length > 1 then
    let lastv := ms.getD (ms.length - 1) 0
    let prev := ms.getD (ms.length - 2) 0
    if prev = 0 then none else some ((lastv - prev) / prev * 100)
  else some 0

/-- Source `src/app.py` lines 124-130: `top_products`.
`groupby("ProductName")` emits groups in ascending `ProductName` order;
`.sort_values(ascending=False)` computes a stable ascending argsort (numpy
quicksort falls back to a stable insertion sort on the small arrays at
hand) and reverses it, so ties end up in descending `ProductName` order;
`.head(10)` keeps the first 10 rows. -/
def top_products (df : List Record) : List (String × ℚ) :=
  (((groupSums Record.productName strLe df).insertionSort
      (fun a b => a.2 ≤ b.2)).reverse).take 10

/-- One step of the running numerator/denominator of pandas
`ewm(...).mean()` with `adjust=True` (the default): over a prefix
`x₀ … xᵢ`, numerator `Σⱼ (1-α)^(i-j)·xⱼ` and denominator `Σⱼ (1-α)^(i-j)`. -/
def ewmStep (α : ℚ) (acc : ℚ × ℚ) (x : ℚ) : ℚ × ℚ :=
  (x + (1 - α) * acc.1, 1 + (1 - α) * acc.2)

/-- The smoothed values, one per prefix, continuing from accumulator `acc`. -/
def ewmMeanAux (α : ℚ) (acc : ℚ × ℚ) : List ℚ → List ℚ
  | [] => []
  | x :: xs =>
    ((ewmStep α acc x).1 / (ewmStep α acc x).2) :: ewmMeanAux α (ewmStep α acc x) xs

/-- Source `src/app.py` line 154: `ema = ts.ewm(span=3).mean()` — pandas exponentially
weighted mean with `adjust=True` (the default), α = 2/(span+1). -/
def ewmMean (α : ℚ) (xs : List ℚ) : List ℚ := ewmMeanAux α (0, 0) xs

/-- The smoothing factor `span=3` stands for: α = 2/(span+1) = 1/2. -/
def alphaSpan3 : ℚ := 2 / (3 + 1)

/-- Source `src/app.py` line 155, `last_value = ema.iloc[-1]`: the EMA of the
monthly series; `none` models the `IndexError` this raises when the
monthly history is empty. -/
def lastEma (df : List Record) : Option ℚ :=
  (ewmMean alphaSpan3 ((monthly_sales df).map Prod.snd)).getLast?

/-- One row of `forecast_df` (`src/app.py` lines 168-171): a month, the
`Actual` column (historical total, `NaN` i.e. `none` on projected months)
and the `Forecast` column (`none` on historical months). -/
structure ForecastRow where
  month : Nat
  actual : Option ℚ
  projected : Option ℚ
deriving DecidableEq, Repr

/-- Source `src/app.py` lines 150-171, the forecast tab pipeline:
`ema = ts.ewm(span=3).mean(); last_value = ema.iloc[-1];
future_dates = pd.date_range(start=ts.index[-1] + MonthBegin(), periods=H, freq="MS");
forecast = Series([last_value]*H, index=future_dates);
forecast_df = concat([ts.rename("Actual"), forecast.rename("Forecast")], axis=1)`.
`none` models the `IndexError` raised by `ema.iloc[-1]` on an empty
monthly history.  `ts.index[-1] + MonthBegin()` is the month after the
last historical month; `date_range(..., freq="MS")` steps one month at a
time; the outer join of the two monotone indexes is historical months
followed by the projected months. -/
def forecastPipeline (df : List Record) (horizon : Nat) :
    Option (List ForecastRow) :=
  let ms := monthly_sales df
  match (ewmMean alphaSpan3 (ms.map Prod.snd)).getLast? with
  | none => none
  | some lastValue =>
    let lastMonth := (ms.map Prod.fst).getLastD 0
    some ((ms.map (fun p => ⟨p.1, some p.2, none⟩)) ++
      (List.range horizon).map (fun i => ⟨lastMonth + 1 + i, none, some lastValue⟩))

/-! ### Spec-modelled definitions (for refinement comparisons only) -/

/-- Modelled from the spec: "recurrence: EMA[0] = value[0];
EMA[i] = α·value[i] + (1−α)·EMA[i−1]", seeded by the first observed value.
This is the spec's claimed smoothing, to be compared with the source's
`ewm(span=3).mean()`. -/
def emaRecurrenceAux (α prev : ℚ) : List ℚ → List ℚ
  | [] => []
  | x :: xs => (α * x + (1 - α) * prev) :: emaRecurrenceAux α (α * x + (1 - α) * prev) xs

/-- Modelled from the spec: the seeded EMA recurrence over a whole series. -/
def emaRecurrence (α : ℚ) : List ℚ → List ℚ
  | [] => []
  | x :: xs => x :: emaRecurrenceAux α x xs

/-- The distinct key values in original encounter order (first occurrences). -/
def keysInOrder {κ : Type} [DecidableEq κ] (k : Record → κ) (df : List Record) :
    List κ :=
  (df.map k).foldl (fun acc x => if x ∈ acc then acc else acc ++ [x]) []

/-- Modelled from the spec: "aggregate by ProductName, sort descending by
summed value, take the first N (ties broken by original encounter order)".
A stable descending sort of the per-product sums taken in encounter order,
to be compared with the source's `top_products`. -/
def top_products_specTieOrder (df : List Record) : List (String × ℚ) :=
  (((keysInOrder Record.productName df).map
      (fun g => (g, groupSum Record.productName df g))).insertionSort
    (fun a b => b.2 ≤ a.2)).take 10

/-! ### Concrete datasets used by scenarios, counterexamples and witnesses -/

/-- The spec's forecast scenario: one invoice per month for three months,
totals 100, 200, 300 (months encoded as absolute month numbers 0, 1, 2). -/
def hist3 : List Record :=
  [⟨1, ⟨0, 5⟩, 100, "Retail", "D1", "P1"⟩,
   ⟨2, ⟨1, 5⟩, 200, "Retail", "D1", "P1"⟩,
   ⟨3, ⟨2, 5⟩, 300, "Retail", "D1", "P1"⟩]

/-- Two products with equal summed value, encountered as "A" then "B". -/
def tieDf : List Record :=
  [⟨1, ⟨0, 1⟩, 5, "Retail", "D1", "A"⟩,
   ⟨2, ⟨0, 2⟩, 5, "Retail", "D1", "B"⟩]

/-- Two monthly buckets whose first (second-last) total is exactly zero. -/
def zeroDf : List Record :=
  [⟨1, ⟨0, 3⟩, 0, "Retail", "D1", "P1"⟩,
   ⟨2, ⟨1, 3⟩, 10, "Retail", "D1", "P1"⟩]

/-- Fifteen distinct products with strictly increasing names and sums
(product `P01` sums to 10, …, `P15` to 150), one invoice each. -/
def prod15 : List Record :=
  [⟨1, ⟨0, 1⟩, 10, "Retail", "D1", "P01"⟩,
   ⟨2, ⟨0, 1⟩, 20, "Retail", "D1", "P02"⟩,
   ⟨3, ⟨0, 1⟩, 30, "Retail", "D1", "P03"⟩,
   ⟨4, ⟨0, 1⟩, 40, "Retail", "D1", "P04"⟩,
   ⟨5, ⟨0, 1⟩, 50, "Retail", "D1", "P05"⟩,
   ⟨6, ⟨0, 1⟩, 60, "Retail", "D1", "P06"⟩,
   ⟨7, ⟨0, 1⟩, 70, "Retail", "D1", "P07"⟩,
   ⟨8, ⟨0, 1⟩, 80, "Retail", "D1", "P08"⟩,
   ⟨9, ⟨0, 1⟩, 90, "Retail", "D1", "P09"⟩,
   ⟨10, ⟨0, 1⟩, 100, "Retail", "D1", "P10"⟩,
   ⟨11, ⟨0, 1⟩, 110, "Retail", "D1", "P11"⟩,
   ⟨12, ⟨0, 1⟩, 120, "Retail", "D1", "P12"⟩,
   ⟨13, ⟨0, 1⟩, 130, "Retail", "D1", "P13"⟩,
   ⟨14, ⟨0, 1⟩, 140, "Retail", "D1", "P14"⟩,
   ⟨15, ⟨0, 1⟩, 150, "Retail", "D1", "P15"⟩]

/-- The weight `(1-α)^j` that the adjusted EWM gives an observation `j`
steps in the past. -/
def ewmWeight (α : ℚ) (j : Nat) : ℚ := (1 - α) ^ j

/-- Weighted numerator of the adjusted EWM over a whole prefix `p`:
`Σ_{j < |p|} (1-α)^(|p|-1-j) · p[j]`. -/
def ewmNum (α : ℚ) (p : List ℚ) : ℚ :=
  ((List.range p.length).map
    (fun j => ewmWeight α (p.length - 1 - j) * p.getD j 0)).sum

/-- Weight normalizer of the adjusted EWM over a prefix of length `n`:
`Σ_{j < n} (1-α)^j`. -/
def ewmDen (α : ℚ) (n : Nat) : ℚ := ((List.range n).map (ewmWeight α)).sum

/-! ### The filter stage (C4) -/

theorem dateLe_trans {a b c : Date} (h1 : dateLe a b = true)
    (h2 : dateLe b c = true) : dateLe a c = true := by
  simp only [dateLe, decide_eq_true_eq] at h1 h2 ⊢
  omega

theorem mem_filterRecords {df : List Record} {cts : List String} {s e : Date}
    {r : Record} :
    r ∈ filterRecords df cts s e ↔
      r ∈ df ∧ r.clientType ∈ cts ∧ dateLe s r.invoiceDate = true ∧
        dateLe r.invoiceDate e = true := by
  simp only [filterRecords, List.mem_filter, Bool.and_eq_true, List.contains,
    List.elem_iff, and_assoc]

end SalesDash

namespace SalesDash

/-- C4: a record survives the filter exactly when its client type is in the
allowed set and its invoice date lies in the inclusive interval [start, end];
an empty allowed set gives an empty result, and an inverted interval
(start > end) gives an empty result. -/
theorem C4_filter_characterization (df : List Record) (cts : List String)
    (s e : Date) :
    (∀ r, r ∈ filterRecords df cts s e ↔
        r ∈ df ∧ r.clientType ∈ cts ∧ dateLe s r.invoiceDate = true ∧
          dateLe r.invoiceDate e = true)
    ∧ (cts = [] → filterRecords df cts s e = [])
    ∧ (dateLe s e = false → filterRecords df cts s e = []) := by
  refine ⟨fun r => mem_filterRecords, fun hcts => ?_, fun hse => ?_⟩
  · rw [List.eq_nil_iff_forall_not_mem]
    intro r hr
    rcases mem_filterRecords.mp hr with ⟨-, hmem, -, -⟩
    rw [hcts] at hmem
    exact List.not_mem_nil r.clientType hmem
  · rw [List.eq_nil_iff_forall_not_mem]
    intro r hr
    rcases mem_filterRecords.mp hr with ⟨-, -, h1, h2⟩
    rw [dateLe_trans h1 h2] at hse
    exact absurd hse (by simp)

theorem C4_filter_characterization_witness :
    filterRecords hist3 [] ⟨0, 1⟩ ⟨2, 28⟩ = [] ∧
    dateLe ⟨1, 1⟩ ⟨0, 28⟩ = false ∧
    filterRecords hist3 ["Retail"] ⟨1, 1⟩ ⟨0, 28⟩ = [] :=
  ⟨(C4_filter_characterization hist3 [] ⟨0, 1⟩ ⟨2, 28⟩).2.1 rfl, by decide,
   (C4_filter_characterization hist3 ["Retail"] ⟨1, 1⟩ ⟨0, 28⟩).2.2 (by decide)⟩

end SalesDash

namespace SalesDash

/-- C8: the average invoice value is total sales over the distinct invoice
count whenever the count is positive (so multiplying back recovers total
sales exactly), and is 0 when the count is zero; no division by zero is
ever performed. -/
theorem C8_avg_invoice_guarded (df : List Record) :
    (total_invoices df ≠ 0 →
      avg_invoice df = total_sales df / (total_invoices df : ℚ) ∧
      avg_invoice df * (total_invoices df : ℚ) = total_sales df)
    ∧ (total_invoices df = 0 → avg_invoice df = 0) := by
  constructor
  · intro h
    have hcast : ((total_invoices df : ℚ)) ≠ 0 := Nat.cast_ne_zero.mpr h
    constructor
    · simp [avg_invoice, h]
    · simp only [avg_invoice, h, ne_eq, not_false_eq_true, if_true]
      exact div_mul_cancel₀ (total_sales df) hcast
  · intro h
    simp [avg_invoice, h]

theorem C8_avg_invoice_guarded_witness :
    total_invoices hist3 ≠ 0 ∧
    avg_invoice hist3 * (total_invoices hist3 : ℚ) = total_sales hist3 :=
  ⟨by decide, ((C8_avg_invoice_guarded hist3).1 (by decide)).2⟩

end SalesDash

namespace SalesDash

/-! ### Evaluation of the monthly aggregation on the concrete datasets -/

theorem monthly_hist3 : monthly_sales hist3 = [(0, 100), (1, 200), (2, 300)] := by
  norm_num +decide [monthly_sales, groupSums, keysOf, groupSum, sumValues,
    monthKey, hist3, List.insertionSort, List.orderedInsert, List.dedup,
    List.pwFilter, List.filter_cons]

theorem monthly_zeroDf : monthly_sales zeroDf = [(0, 0), (1, 10)] := by
  norm_num +decide [monthly_sales, groupSums, keysOf, groupSum, sumValues,
    monthKey, zeroDf, List.insertionSort, List.orderedInsert, List.dedup,
    List.pwFilter, List.filter_cons]

/-- C6: month-over-month growth is `(last − secondLast) / secondLast · 100`
whenever there are at least two monthly buckets (and the division is
defined, i.e. the second-last total is nonzero — the zero case is the
separately documented unguarded division), and 0 with fewer than two
buckets. -/
theorem C6_monthly_growth (df : List Record) :
    (∀ prev lastv : ℚ,
      2 ≤ (monthly_sales df).length →
      (((monthly_sales df).map Prod.snd).dropLast).getLast? = some prev →
      ((monthly_sales df).map Prod.snd).getLast? = some lastv →
      prev ≠ 0 →
      growth df = some ((lastv - prev) / prev * 100))
    ∧ ((monthly_sales df).length < 2 → growth df = some 0) := by
  constructor
  · intro prev lastv hlen hprev hlast hne
    set ms : List ℚ := (monthly_sales df).map Prod.snd with hms
    have hmslen : ms.length = (monthly_sales df).length := by
      simp [hms]
    have hlast' : ms.getD (ms.length - 1) 0 = lastv := by
      rw [List.getD_eq_getElem?_getD, ← List.getLast?_eq_getElem?, hlast]
      rfl
    have hprev' : ms.getD (ms.length - 2) 0 = prev := by
      have h1 : ms.dropLast.length = ms.length - 1 := List.length_dropLast ms
      have h2 : (ms.dropLast)[ms.length - 2]? = ms[ms.length - 2]? := by
        rw [List.getElem?_dropLast]
        exact if_pos (by omega)
      have h3 : ms.dropLast.getLast? = (ms.dropLast)[ms.length - 2]? := by
        rw [List.getLast?_eq_getElem?, h1, show ms.length - 1 - 1 = ms.length - 2 from by omega]
      rw [List.getD_eq_getElem?_getD, ← h2, ← h3, hprev]
      rfl
    simp only [growth, hms.symm] at *
    rw [if_pos (by omega), if_neg (by rw [hprev']; exact hne), hprev', hlast']
  · intro hlen
    simp only [growth]
    rw [if_neg (by simp; omega)]

theorem C6_monthly_growth_witness :
    2 ≤ (monthly_sales hist3).length ∧
    (((monthly_sales hist3).map Prod.snd).dropLast).getLast? = some 200 ∧
    ((monthly_sales hist3).map Prod.snd).getLast? = some 300 ∧
    (200 : ℚ) ≠ 0 ∧
    growth hist3 = some (((300 : ℚ) - 200) / 200 * 100) :=
  ⟨by rw [monthly_hist3]; norm_num,
   by rw [monthly_hist3]; norm_num,
   by rw [monthly_hist3]; norm_num,
   by norm_num,
   (C6_monthly_growth hist3).1 200 300
     (by rw [monthly_hist3]; norm_num)
     (by rw [monthly_hist3]; norm_num)
     (by rw [monthly_hist3]; norm_num)
     (by norm_num)⟩

/-- C7: the growth computation does not guard its division: on a dataset
with two monthly buckets whose second-last total is exactly zero, the
division by the second-last total is performed and yields a nonfinite
float (modelled as `none`), not a guarded value. -/
theorem C7_growth_division_unguarded :
    2 ≤ (monthly_sales zeroDf).length ∧
    ((monthly_sales zeroDf).map Prod.snd).getD
      (((monthly_sales zeroDf).map Prod.snd).length - 2) 0 = 0 ∧
    growth zeroDf = none := by
  refine ⟨by rw [monthly_zeroDf]; norm_num, ?_, ?_⟩
  · rw [monthly_zeroDf]
    norm_num
  · simp only [growth, monthly_zeroDf]
    norm_num

end SalesDash


namespace SalesDash

/-! ### Conservation of grouped sums (C9) -/

theorem sumValues_filter_not (df : List Record) (p : Record → Bool) :
    sumValues (df.filter p) + sumValues (df.filter (fun r => !p r)) =
      sumValues df := by
  have hperm := (List.filter_append_perm p df).map Record.valueNp
  have := hperm.sum_eq
  simpa [sumValues, List.map_append] using this

theorem groupSum_cover {κ : Type} [DecidableEq κ] (k : Record → κ) :
    ∀ (gs : List κ) (df : List Record), gs.Nodup → (∀ r ∈ df, k r ∈ gs) →
      (gs.map (fun g => groupSum k df g)).sum = sumValues df := by
  intro gs
  induction gs with
  | nil =>
    intro df _ hcov
    cases df with
    | nil => simp [sumValues]
    | cons r t => exact absurd (hcov r (by simp)) (by simp)
  | cons g gs ih =>
    intro df hnd hcov
    have hg : g ∉ gs := (List.nodup_cons.mp hnd).1
    set df2 : List Record := df.filter (fun r => !(decide (k r = g))) with hdf2
    have htail : ∀ g' ∈ gs, groupSum k df g' = groupSum k df2 g' := by
      intro g' hg'
      have hne : g' ≠ g := fun h => hg (h ▸ hg')
      simp only [groupSum, hdf2, List.filter_filter]
      congr 1
      apply List.filter_congr
      intro r _
      by_cases h : k r = g'
      · simp [h, hne]
      · simp [h]
    have hmap : (gs.map (fun g' => groupSum k df g')).sum =
        (gs.map (fun g' => groupSum k df2 g')).sum := by
      congr 1
      exact List.map_congr_left htail
    have hcov2 : ∀ r ∈ df2, k r ∈ gs := by
      intro r hr
      rcases List.mem_filter.mp hr with ⟨hrdf, hrp⟩
      have := hcov r hrdf
      rcases List.mem_cons.mp this with h | h
      · exfalso
        simp [h] at hrp
      · exact h
    have hih := ih df2 (List.nodup_cons.mp hnd).2 hcov2
    calc ((g :: gs).map (fun g' => groupSum k df g')).sum
        = groupSum k df g + (gs.map (fun g' => groupSum k df g')).sum := by
          simp
      _ = sumValues (df.filter (fun r => decide (k r = g))) + sumValues df2 := by
          rw [hmap, hih]; rfl
      _ = sumValues df := sumValues_filter_not df (fun r => decide (k r = g))

theorem groupSums_conserved {κ : Type} [DecidableEq κ] (k : Record → κ)
    (r : κ → κ → Prop) [DecidableRel r] (df : List Record) :
    ((groupSums k r df).map Prod.snd).sum = sumValues df := by
  have hperm := List.perm_insertionSort r (keysOf k df)
  have hnd : ((keysOf k df).insertionSort r).Nodup :=
    hperm.nodup_iff.mpr (List.nodup_dedup _)
  have hcov : ∀ rec ∈ df, k rec ∈ (keysOf k df).insertionSort r := by
    intro rec hrec
    exact hperm.mem_iff.mpr (List.mem_dedup.mpr (List.mem_map_of_mem k hrec))
  have := groupSum_cover k ((keysOf k df).insertionSort r) df hnd hcov
  simpa [groupSums, List.map_map, Function.comp] using this

/-- C9: grouped sums are conserved — for each grouping key used by the
dashboard (distributor, client type, product, calendar month) the group
totals add up to the total sales of the ungrouped filtered set. -/
theorem C9_aggregation_conserves_total (df : List Record) :
    ((groupSums Record.distributorName strLe df).map Prod.snd).sum =
      total_sales df ∧
    ((groupSums Record.clientType strLe df).map Prod.snd).sum =
      total_sales df ∧
    ((groupSums Record.productName strLe df).map Prod.snd).sum =
      total_sales df ∧
    ((monthly_sales df).map Prod.snd).sum = total_sales df :=
  ⟨groupSums_conserved Record.distributorName strLe df,
   groupSums_conserved Record.clientType strLe df,
   groupSums_conserved Record.productName strLe df,
   groupSums_conserved monthKey (fun a b => a ≤ b) df⟩

end SalesDash

namespace SalesDash

/-! ### The adjusted exponentially weighted mean (C1) -/

theorem ewmDen_succ (α : ℚ) (n : Nat) :
    ewmDen α (n + 1) = 1 + (1 - α) * ewmDen α n := by
  have h : List.range (n + 1) = 0 :: (List.range n).map Nat.succ :=
    List.range_succ_eq_map n
  simp only [ewmDen, h, List.map_cons, List.map_map, List.sum_cons]
  rw [← List.sum_map_mul_left]
  have hmap : (List.range n).map (ewmWeight α ∘ Nat.succ) =
      (List.range n).map (fun b => (1 - α) * ewmWeight α b) := by
    apply List.map_congr_left
    intro j _
    simp only [Function.comp_apply, ewmWeight, pow_succ]
    ring
  rw [hmap]
  simp [ewmWeight]

theorem ewmNum_concat (α x : ℚ) (p : List ℚ) :
    ewmNum α (p ++ [x]) = x + (1 - α) * ewmNum α p := by
  have hlen : (p ++ [x]).length = p.length + 1 := by simp
  simp only [ewmNum, hlen, List.range_succ, List.map_append, List.sum_append,
    List.map_cons, List.map_nil, List.sum_cons, List.sum_nil]
  rw [add_comm]
  congr 1
  · have hx : (p ++ [x]).getD p.length 0 = x := by
      rw [List.getD_eq_getElem?_getD, List.getElem?_append_right (le_refl _)]
      simp
    simp [ewmWeight, hx]
  · rw [← List.sum_map_mul_left]
    congr 1
    apply List.map_congr_left
    intro j hj
    have hjlt : j < p.length := List.mem_range.mp hj
    have hget : (p ++ [x]).getD j 0 = p.getD j 0 := by
      rw [List.getD_eq_getElem?_getD, List.getD_eq_getElem?_getD,
        List.getElem?_append_left hjlt]
    have hpow : ewmWeight α (p.length + 1 - 1 - j) =
        (1 - α) * ewmWeight α (p.length - 1 - j) := by
      simp only [ewmWeight]
      rw [show p.length + 1 - 1 - j = (p.length - 1 - j) + 1 from by omega,
        pow_succ]
      ring
    rw [hget, hpow]
    ring

theorem ewmMeanAux_spec (α : ℚ) :
    ∀ (xs p : List ℚ) (i : Nat), i < xs.length →
      (ewmMeanAux α (ewmNum α p, ewmDen α p.length) xs).getD i 0 =
        ewmNum α (p ++ xs.take (i + 1)) / ewmDen α (p.length + i + 1) := by
  intro xs
  induction xs with
  | nil => intro p i hi; exact absurd hi (by simp)
  | cons x xs ih =>
    intro p i hi
    have hstep : ewmStep α (ewmNum α p, ewmDen α p.length) x =
        (ewmNum α (p ++ [x]), ewmDen α ((p ++ [x]).length)) := by
      have h1 : (p ++ [x]).length = p.length + 1 := by simp
      simp only [ewmStep, h1, ewmNum_concat, ewmDen_succ]
    cases i with
    | zero =>
      simp only [ewmMeanAux, hstep, List.getD_cons_zero, List.take_succ_cons,
        List.take_zero]
      have h1 : (p ++ [x]).length = p.length + 1 := by simp
      rw [h1]
    | succ i =>
      have hi' : i < xs.length := by simpa using hi
      have := ih (p ++ [x]) i hi'
      simp only [ewmMeanAux, hstep, List.getD_cons_succ]
      rw [this]
      have h1 : (p ++ [x]).length = p.length + 1 := by simp
      rw [h1, List.append_assoc, List.singleton_append, ← List.take_succ_cons,
        show p.length + 1 + i + 1 = p.length + (i + 1) + 1 from by omega]

theorem ewmMean_spec (α : ℚ) (xs : List ℚ) (i : Nat) (hi : i < xs.length) :
    (ewmMean α xs).getD i 0 =
      ewmNum α (xs.take (i + 1)) / ewmDen α (i + 1) := by
  have h0 : ewmNum α ([] : List ℚ) = 0 := by simp [ewmNum]
  have h1 : ewmDen α (([] : List ℚ)).length = 0 := by simp [ewmDen]
  have := ewmMeanAux_spec α xs [] i hi
  rw [h0, h1] at this
  simpa [ewmMean] using this

theorem ewmMeanAux_length (α : ℚ) :
    ∀ (xs : List ℚ) (acc : ℚ × ℚ), (ewmMeanAux α acc xs).length = xs.length := by
  intro xs
  induction xs with
  | nil => intro acc; rfl
  | cons x xs ih => intro acc; simp [ewmMeanAux, ih]

theorem ewmMean_length (α : ℚ) (xs : List ℚ) :
    (ewmMean α xs).length = xs.length :=
  ewmMeanAux_length α xs (0, 0)

end SalesDash

namespace SalesDash

/-! ### The smoothing the code actually performs (C1) -/

theorem ewm100 :
    ewmMean alphaSpan3 [100, 200, 300] = [100, 500 / 3, 1700 / 7] := by
  norm_num [ewmMean, ewmMeanAux, ewmStep, alphaSpan3]

theorem ewm_hist3 :
    ewmMean alphaSpan3 ((monthly_sales hist3).map Prod.snd) =
      [100, 500 / 3, 1700 / 7] := by
  rw [monthly_hist3]
  norm_num [ewm100]

theorem forecast_hist3 :
    forecastPipeline hist3 2 =
      some [⟨0, some 100, none⟩, ⟨1, some 200, none⟩, ⟨2, some 300, none⟩,
            ⟨3, none, some (1700 / 7)⟩, ⟨4, none, some (1700 / 7)⟩] := by
  have hlast : (ewmMean alphaSpan3 ((monthly_sales hist3).map Prod.snd)).getLast?
      = some (1700 / 7) := by
    rw [ewm_hist3]
    rfl
  simp only [forecastPipeline, hlast]
  rw [monthly_hist3]
  norm_num [List.range_succ, List.getLastD]

/-- C1 counterexample: the code's smoothing (`ewm(span=3).mean()`, pandas
default `adjust=True`) does not satisfy the spec's seeded recurrence.  On
the spec's own scenario — monthly totals 100, 200, 300 — the recurrence
yields 100, 150, 225, but the code's smoothed series is 100, 500/3,
1700/7 ≈ 242.86, and the horizon-2 projection repeats 1700/7, not 225. -/
theorem C1_ema_recurrence_counterexample :
    emaRecurrence alphaSpan3 [100, 200, 300] = [100, 150, 225] ∧
    ewmMean alphaSpan3 ((monthly_sales hist3).map Prod.snd) =
      [100, 500 / 3, 1700 / 7] ∧
    ewmMean alphaSpan3 ((monthly_sales hist3).map Prod.snd) ≠
      emaRecurrence alphaSpan3 [100, 200, 300] ∧
    forecastPipeline hist3 2 ≠
      some [⟨0, some 100, none⟩, ⟨1, some 200, none⟩, ⟨2, some 300, none⟩,
            ⟨3, none, some 225⟩, ⟨4, none, some 225⟩] := by
  have hrec : emaRecurrence alphaSpan3 [100, 200, 300] = [100, 150, 225] := by
    norm_num [emaRecurrence, emaRecurrenceAux, alphaSpan3]
  refine ⟨hrec, ewm_hist3, ?_, ?_⟩
  · rw [hrec, ewm_hist3]
    norm_num
  · rw [forecast_hist3]
    norm_num

/-- C1 amended: the smoothed series is the adjusted exponentially weighted
mean `EMA[i] = (Σ_{j≤i} (1-α)^(i-j)·v[j]) / (Σ_{j≤i} (1-α)^j)` with
α = 2/(span+1) = 1/2 — pandas' `ewm(span=3).mean()` default — not the
seeded recurrence; on the history [(Jan,100),(Feb,200),(Mar,300)] the
smoothed values are 100, 500/3, 1700/7 and the horizon-2 projection is
[(Apr, 1700/7), (May, 1700/7)]. -/
theorem C1_ema_adjusted_amended :
    (∀ (xs : List ℚ) (i : Nat), i < xs.length →
      (ewmMean alphaSpan3 xs).getD i 0 =
        ewmNum alphaSpan3 (xs.take (i + 1)) / ewmDen alphaSpan3 (i + 1))
    ∧ ewmMean alphaSpan3 ((monthly_sales hist3).map Prod.snd) =
        [100, 500 / 3, 1700 / 7]
    ∧ forecastPipeline hist3 2 =
        some [⟨0, some 100, none⟩, ⟨1, some 200, none⟩, ⟨2, some 300, none⟩,
              ⟨3, none, some (1700 / 7)⟩, ⟨4, none, some (1700 / 7)⟩] :=
  ⟨fun xs i hi => ewmMean_spec alphaSpan3 xs i hi, ewm_hist3, forecast_hist3⟩

theorem C1_ema_adjusted_amended_witness :
    ((2 : Nat) < ([100, 200, 300] : List ℚ).length) ∧
    (ewmMean alphaSpan3 [100, 200, 300]).getD 2 0 =
      ewmNum alphaSpan3 (([100, 200, 300] : List ℚ).take (2 + 1)) /
        ewmDen alphaSpan3 (2 + 1) :=
  ⟨by norm_num, C1_ema_adjusted_amended.1 [100, 200, 300] 2 (by norm_num)⟩

end SalesDash

namespace SalesDash

/-! ### Shape of the forecast series (C5, C10) -/

theorem lastEma_isSome (df : List Record) (hne : monthly_sales df ≠ []) :
    ∃ v, lastEma df = some v := by
  have hlen : (ewmMean alphaSpan3 ((monthly_sales df).map Prod.snd)).length ≠ 0 := by
    rw [ewmMean_length, List.length_map]
    exact fun h => hne (List.length_eq_zero.mp h)
  have hnil : ewmMean alphaSpan3 ((monthly_sales df).map Prod.snd) ≠ [] :=
    fun h => hlen (by rw [h]; rfl)
  cases hlast : (ewmMean alphaSpan3 ((monthly_sales df).map Prod.snd)).getLast? with
  | none => exact absurd (List.getLast?_eq_none_iff.mp hlast) hnil
  | some v => exact ⟨v, by rw [lastEma, hlast]⟩

theorem forecastPipeline_eq (df : List Record) (h : Nat) (v : ℚ)
    (hv : (ewmMean alphaSpan3 ((monthly_sales df).map Prod.snd)).getLast? = some v) :
    forecastPipeline df h =
      some ((monthly_sales df).map (fun p => ⟨p.1, some p.2, none⟩) ++
        (List.range h).map (fun i =>
          ⟨((monthly_sales df).map Prod.fst).getLastD 0 + 1 + i, none, some v⟩)) := by
  simp only [forecastPipeline, hv]

theorem chain_succ_range' (s : Nat) :
    ∀ n : Nat, List.Chain' (fun a b => b = a + 1) (List.range' s n) := by
  have key : ∀ (n s : Nat), List.Chain' (fun a b => b = a + 1) (List.range' s n) := by
    intro n
    induction n with
    | zero => intro s; simp
    | succ m ih =>
      intro s
      rw [List.range'_succ]
      rw [List.chain'_cons']
      refine ⟨?_, ih (s + 1)⟩
      intro b hb
      cases m with
      | zero => simp [List.range'] at hb
      | succ k =>
        rw [List.range'_succ] at hb
        simp only [List.head?_cons, Option.mem_def, Option.some.injEq] at hb
        omega
  exact fun n => key n s

/-- C5: for a non-empty monthly history and a positive horizon H, the
forecast frame has (history length) + H rows; every projected row carries
the last EMA value and no actual value; the projected months start at the
month immediately after the last observed month and increase by exactly
one with no gaps or duplicates; historical rows carry no projected value. -/
theorem C5_forecast_shape (df : List Record) (h lm : Nat)
    (hne : monthly_sales df ≠ []) (hpos : 0 < h)
    (hlm : ((monthly_sales df).map Prod.fst).getLast? = some lm) :
    ∃ out, forecastPipeline df h = some out ∧
      out.length = (monthly_sales df).length + h ∧
      (∀ row ∈ out.drop (monthly_sales df).length,
        row.actual = none ∧ row.projected = lastEma df) ∧
      ((out.drop (monthly_sales df).length).map ForecastRow.month).head? =
        some (lm + 1) ∧
      List.Chain' (fun a b => b = a + 1)
        ((out.drop (monthly_sales df).length).map ForecastRow.month) ∧
      (∀ row ∈ out.take (monthly_sales df).length, row.projected = none) := by
  obtain ⟨v, hv⟩ := lastEma_isSome df hne
  have hv' : (ewmMean alphaSpan3 ((monthly_sales df).map Prod.snd)).getLast?
      = some v := hv
  have hlmD : ((monthly_sales df).map Prod.fst).getLastD 0 = lm := by
    rw [List.getLastD_eq_getLast?, hlm]
    rfl
  refine ⟨_, forecastPipeline_eq df h v hv', ?_⟩
  set H : List ForecastRow :=
    (monthly_sales df).map (fun p => ⟨p.1, some p.2, none⟩) with hH
  set P : List ForecastRow :=
    (List.range h).map (fun i =>
      ⟨((monthly_sales df).map Prod.fst).getLastD 0 + 1 + i, none, some v⟩)
    with hP
  have hHlen : H.length = (monthly_sales df).length := by simp [hH]
  have hdrop : (H ++ P).drop (monthly_sales df).length = P := by
    rw [← hHlen, List.drop_left]
  have htake : (H ++ P).take (monthly_sales df).length = H := by
    rw [← hHlen, List.take_left]
  have hmonths : P.map ForecastRow.month = List.range' (lm + 1) h := by
    rw [hP, List.map_map]
    rw [List.range'_eq_map_range]
    apply List.map_congr_left
    intro i _
    show ((monthly_sales df).map Prod.fst).getLastD 0 + 1 + i = lm + 1 + i
    rw [hlmD]
  refine ⟨?_, ?_, ?_, ?_, ?_⟩
  · simp [hH, hP]
  · rw [hdrop]
    intro row hrow
    rcases List.mem_map.mp hrow with ⟨i, _, hi⟩
    rw [← hi]
    exact ⟨rfl, hv.symm ▸ rfl⟩
  · rw [hdrop, hmonths]
    cases h with
    | zero => exact absurd hpos (by omega)
    | succ m => rw [List.range'_succ]; rfl
  · rw [hdrop, hmonths]
    exact chain_succ_range' (lm + 1) h
  · rw [htake]
    intro row hrow
    rcases List.mem_map.mp hrow with ⟨p, _, hp⟩
    rw [← hp]

theorem C5_forecast_shape_witness :
    monthly_sales hist3 ≠ [] ∧ 0 < 6 ∧
    ((monthly_sales hist3).map Prod.fst).getLast? = some 2 ∧
    (∃ out, forecastPipeline hist3 6 = some out ∧
      out.length = (monthly_sales hist3).length + 6 ∧
      (∀ row ∈ out.drop (monthly_sales hist3).length,
        row.actual = none ∧ row.projected = lastEma hist3) ∧
      ((out.drop (monthly_sales hist3).length).map ForecastRow.month).head? =
        some (2 + 1) ∧
      List.Chain' (fun a b => b = a + 1)
        ((out.drop (monthly_sales hist3).length).map ForecastRow.month) ∧
      (∀ row ∈ out.take (monthly_sales hist3).length, row.projected = none)) :=
  ⟨by rw [monthly_hist3]; simp, by norm_num,
   by rw [monthly_hist3]; rfl,
   C5_forecast_shape hist3 6 2 (by rw [monthly_hist3]; simp) (by norm_num)
     (by rw [monthly_hist3]; rfl)⟩

end SalesDash

namespace SalesDash

theorem projected_eq_lastEma (df : List Record) (h : Nat)
    (out : List ForecastRow) (hout : forecastPipeline df h = some out) :
    ∀ row ∈ out, ∀ q, row.projected = some q → lastEma df = some q := by
  intro row hrow q hq
  cases hv : (ewmMean alphaSpan3 ((monthly_sales df).map Prod.snd)).getLast? with
  | none =>
    simp only [forecastPipeline, hv] at hout
    exact absurd hout (by simp)
  | some v =>
    rw [forecastPipeline_eq df h v hv, Option.some.injEq] at hout
    rw [← hout] at hrow
    rcases List.mem_append.mp hrow with hmem | hmem
    · rcases List.mem_map.mp hmem with ⟨p, _, hp⟩
      rw [← hp] at hq
      exact absurd hq (by simp)
    · rcases List.mem_map.mp hmem with ⟨i, _, hi⟩
      rw [← hi] at hq
      simp only [Option.some.injEq] at hq
      rw [lastEma, hv, hq]

/-- C10: the projected per-month value is independent of the requested
horizon — for any two horizons in the slider range 3..12 over the same
non-empty monthly history, every projected value of either run equals the
one last-EMA value; the horizon only changes how many months are
produced. -/
theorem C10_horizon_independence (df : List Record) (h1 h2 : Nat)
    (hne : monthly_sales df ≠ []) (hb1 : 3 ≤ h1) (hb1' : h1 ≤ 12)
    (hb2 : 3 ≤ h2) (hb2' : h2 ≤ 12) :
    ∃ v, lastEma df = some v ∧
      ∀ o1 o2, forecastPipeline df h1 = some o1 →
        forecastPipeline df h2 = some o2 →
        (∀ row ∈ o1, ∀ q, row.projected = some q → q = v) ∧
        (∀ row ∈ o2, ∀ q, row.projected = some q → q = v) := by
  obtain ⟨v, hv⟩ := lastEma_isSome df hne
  refine ⟨v, hv, fun o1 o2 h1eq h2eq => ⟨?_, ?_⟩⟩
  · intro row hrow q hq
    have := projected_eq_lastEma df h1 o1 h1eq row hrow q hq
    rw [hv] at this
    exact (Option.some.injEq v q ▸ this).symm
  · intro row hrow q hq
    have := projected_eq_lastEma df h2 o2 h2eq row hrow q hq
    rw [hv] at this
    exact (Option.some.injEq v q ▸ this).symm

theorem C10_horizon_independence_witness :
    monthly_sales hist3 ≠ [] ∧ 3 ≤ 3 ∧ 3 ≤ 12 ∧ 3 ≤ 6 ∧ 6 ≤ 12 ∧
    (∃ v, lastEma hist3 = some v ∧
      ∀ o1 o2, forecastPipeline hist3 3 = some o1 →
        forecastPipeline hist3 6 = some o2 →
        (∀ row ∈ o1, ∀ q, row.projected = some q → q = v) ∧
        (∀ row ∈ o2, ∀ q, row.projected = some q → q = v)) :=
  ⟨by rw [monthly_hist3]; simp, by norm_num, by norm_num, by norm_num,
   by norm_num,
   C10_horizon_independence hist3 3 6 (by rw [monthly_hist3]; simp)
     (by norm_num) (by norm_num) (by norm_num) (by norm_num)⟩

end SalesDash

namespace SalesDash

/-! ### Top-10 products (C3) -/

theorem topProducts_tieDf : top_products tieDf = [("B", 5), ("A", 5)] := by
  norm_num +decide [top_products, groupSums, keysOf, groupSum, sumValues, tieDf,
    List.insertionSort, List.orderedInsert, List.dedup, List.pwFilter,
    List.filter_cons, strLe, charListLe]

theorem topProducts_spec_tieDf :
    top_products_specTieOrder tieDf = [("A", 5), ("B", 5)] := by
  norm_num +decide [top_products_specTieOrder, keysInOrder, groupSum, sumValues,
    tieDf, List.insertionSort, List.orderedInsert, List.filter_cons]

/-- C3 counterexample: ties are not broken by original encounter order.
With products encountered as "A" then "B", both summing to 5, the code
(groupby in ascending key order, then a reversed stable ascending sort)
returns "B" before "A", while the spec's encounter-order tie policy
returns "A" before "B". -/
theorem C3_tie_order_counterexample :
    top_products tieDf = [("B", 5), ("A", 5)] ∧
    top_products_specTieOrder tieDf = [("A", 5), ("B", 5)] ∧
    top_products tieDf ≠ top_products_specTieOrder tieDf := by
  refine ⟨topProducts_tieDf, topProducts_spec_tieDf, ?_⟩
  rw [topProducts_tieDf, topProducts_spec_tieDf]
  simp

theorem topProducts_prod15 :
    top_products prod15 =
      [("P15", 150), ("P14", 140), ("P13", 130), ("P12", 120), ("P11", 110),
       ("P10", 100), ("P09", 90), ("P08", 80), ("P07", 70), ("P06", 60)] := by
  norm_num +decide [top_products, groupSums, keysOf, groupSum, sumValues,
    prod15, List.insertionSort, List.orderedInsert, List.dedup, List.pwFilter,
    List.filter_cons, strLe, charListLe]

end SalesDash

namespace SalesDash

/-- C3 amended: Top-10 products aggregates ValueNp sums by ProductName
(groups formed in ascending ProductName order), sorts descending by summed
value and takes the first 10; ties among equal sums come out in descending
ProductName order (the sort reverses a stable ascending pass over the
alphabetically ordered groups), not in original encounter order.  The
output values are always descending and at most 10; on the 15-product
dataset with strictly increasing sums it is exactly the 10 largest, in
descending order. -/
theorem C3_top10_descending :
    (∀ df : List Record,
      List.Sorted (fun a b : ℚ => b ≤ a) ((top_products df).map Prod.snd) ∧
      (top_products df).length ≤ 10) ∧
    top_products prod15 =
      [("P15", 150), ("P14", 140), ("P13", 130), ("P12", 120), ("P11", 110),
       ("P10", 100), ("P09", 90), ("P08", 80), ("P07", 70), ("P06", 60)] := by
  refine ⟨fun df => ⟨?_, ?_⟩, topProducts_prod15⟩
  · have hs : List.Sorted (fun a b : String × ℚ => a.2 ≤ b.2)
        ((groupSums Record.productName strLe df).insertionSort
          (fun a b => a.2 ≤ b.2)) := by
      haveI : IsTotal (String × ℚ) (fun a b => a.2 ≤ b.2) :=
        ⟨fun a b => le_total a.2 b.2⟩
      haveI : IsTrans (String × ℚ) (fun a b => a.2 ≤ b.2) :=
        ⟨fun _ _ _ hab hbc => le_trans hab hbc⟩
      exact List.sorted_insertionSort _ _
    have hrev : List.Pairwise (fun a b : String × ℚ => b.2 ≤ a.2)
        (((groupSums Record.productName strLe df).insertionSort
          (fun a b => a.2 ≤ b.2)).reverse) :=
      List.pairwise_reverse.mpr hs
    have htake : List.Pairwise (fun a b : String × ℚ => b.2 ≤ a.2)
        (top_products df) :=
      hrev.sublist (List.take_sublist 10 _)
    exact htake.map Prod.snd (fun _ _ h => h)
  · rw [top_products]
    rw [List.length_take]
    exact min_le_left _ _

end SalesDash

namespace SalesDash

/-- C2: on an empty filtered dataset the KPI and aggregation stages all
degrade to zero/empty — but the forecast pipeline does not: with an empty
monthly history, `ema.iloc[-1]` raises an `IndexError` (modelled `none`).
Concretely, selecting no client types empties the filtered frame, every
KPI and grouping is zero/empty, and the forecast stage fails instead of
degrading, contradicting the claim that no downstream computation fails. -/
theorem C2_empty_filter_forecast_fails :
    filterRecords hist3 [] ⟨0, 1⟩ ⟨2, 28⟩ = [] ∧
    total_sales (filterRecords hist3 [] ⟨0, 1⟩ ⟨2, 28⟩) = 0 ∧
    total_invoices (filterRecords hist3 [] ⟨0, 1⟩ ⟨2, 28⟩) = 0 ∧
    avg_invoice (filterRecords hist3 [] ⟨0, 1⟩ ⟨2, 28⟩) = 0 ∧
    monthly_sales (filterRecords hist3 [] ⟨0, 1⟩ ⟨2, 28⟩) = [] ∧
    growth (filterRecords hist3 [] ⟨0, 1⟩ ⟨2, 28⟩) = some 0 ∧
    groupSums Record.distributorName strLe
      (filterRecords hist3 [] ⟨0, 1⟩ ⟨2, 28⟩) = [] ∧
    groupSums Record.clientType strLe
      (filterRecords hist3 [] ⟨0, 1⟩ ⟨2, 28⟩) = [] ∧
    top_products (filterRecords hist3 [] ⟨0, 1⟩ ⟨2, 28⟩) = [] ∧
    forecastPipeline (filterRecords hist3 [] ⟨0, 1⟩ ⟨2, 28⟩) 6 = none := by
  decide

end SalesDash
